import Mathlib

/-!
# Verification of the fdk-mcp catalog cache-and-retrieval engine

Shallow embedding of the `fdk_mcp` use cases (advanced search, bulk
download, incremental cache update, cache coverage, single-object get,
grouping) over the domain entities, together with proofs of the
specification's testable properties.

Conventions of the embedding:
* Python dataclasses become Lean structures with the same field names.
* The effectful `CatalogRepository` collaborator is modelled as a record of
  oracle functions; `fetch_object_by_id` additionally takes the index of
  the call made for that id, so that transient failures (a fetch that fails
  on one attempt and succeeds on a later one) are expressible.
* The `CacheRepository` implementation (`FileCacheRepository`, imported by
  the SBB plugin from `fdk_mcp.infrastructure.cache`) is not part of the
  sources; its operations are modelled from the spec where noted.
* `async` methods become pure functions threading the cache state; fallible
  calls return `Except`.  Wall-clock durations and float-valued duration
  fields are omitted: no claim depends on them.
* Python dict-valued `metadata` fields (open-ended `Any` maps) are omitted
  from the entities: no code path relevant to the claims reads them.
-/

namespace FdkMcp

/-! ## Domain entities (src/fdk_mcp/domain/entities) -/

/-- Value of a `Property` (`value: Any | None` in the dataclass; the source
only ever distinguishes `str` values from the rest, via `isinstance`). -/
inductive PValue where
  | str (s : String)
  | num (n : Int)
  | boolean (b : Bool)
  | null
deriving DecidableEq, Repr

/-- A single property/attribute of a catalog object. -/
structure Property where
  id : String
  name : String
  value : PValue := .null
  unit : Option String := none
  description : Option String := none
  data_type : Option String := none
deriving DecidableEq, Repr

/-- A group of related properties. -/
structure PropertySet where
  id : String
  name : String
  properties : List Property := []
  description : Option String := none
deriving DecidableEq, Repr

/-- A catalog object/item; summary objects have `property_sets = []`. -/
structure CatalogObject where
  id : String
  name : String
  domain : String
  description : Option String := none
  image_id : Option String := none
  property_sets : List PropertySet := []
  relationships : List (String × List String) := []
  classifications : List String := []
deriving DecidableEq, Repr

/-- `CatalogObject.has_property_sets`: `len(self.property_sets) > 0`. -/
def CatalogObject.has_property_sets (o : CatalogObject) : Bool :=
  decide (0 < o.property_sets.length)

/-- Version/release information for a catalog. -/
structure ReleaseInfo where
  name : String
  date : String
deriving DecidableEq, Repr

/-! ## Catalog repository (src/fdk_mcp/domain/repositories/catalog_repository.py)
and error taxonomy (src/fdk_mcp/plugins/base/exceptions.py) -/

/-- Errors raised by catalog operations: `ObjectNotFoundError` (404) and
the base `CatalogError` (transient network/server failures). -/
inductive CatalogErr where
  | objectNotFound (object_id : String)
  | catalogError (msg : String)
deriving DecidableEq, Repr

/-- Decidable equality of `Except` results, used to evaluate the use cases
on concrete witness inputs. -/
instance {e a : Type} [DecidableEq e] [DecidableEq a] : DecidableEq (Except e a) := fun x y =>
  match x, y with
  | .ok u, .ok v =>
      if h : u = v then isTrue (congrArg Except.ok h)
      else isFalse (fun hh => h (Except.ok.inj hh))
  | .error u, .error v =>
      if h : u = v then isTrue (congrArg Except.error h)
      else isFalse (fun hh => h (Except.error.inj hh))
  | .ok _, .error _ => isFalse (fun hh => Except.noConfusion hh)
  | .error _, .ok _ => isFalse (fun hh => Except.noConfusion hh)

/-- Response from the catalog listing operation. -/
structure CatalogResponse where
  objects : List CatalogObject
  total_count : Nat
  release : Option ReleaseInfo := none
deriving DecidableEq, Repr

/-- Oracle for the `CatalogRepository` protocol.  `fetch_object_by_id` takes
`object_id`, `language` and the index of the call made for that id during
the operation being modelled (0 for the first call); this lets one oracle
describe per-attempt outcomes of the retry loops. -/
structure Catalog where
  fetch_all_objects : String → Except CatalogErr CatalogResponse
  fetch_object_by_id : String → String → Nat → Except CatalogErr CatalogObject

/-! ## Cache state

The concrete `CacheRepository` implementation (`FileCacheRepository`) is not
in the sources; only the protocol (cache_repository.py), its callers and a
test fake exist.  The state and the operations below are therefore modelled
from the spec (§4.1 ObjectCache, §4.2 CoverageAnalyzer). -/

/-- Modelled from the spec: the persisted key-value store of an `ObjectCache`
(`FileCacheRepository` is missing from the sources).  Entries are an
association list keyed by object id (unique keys by construction), plus the
metadata the protocol exposes. -/
structure CacheState where
  entries : List (String × CatalogObject) := []
  release : Option ReleaseInfo := none
  object_count : Nat := 0
deriving DecidableEq, Repr

/-- `get_cached_object`: lookup by object id. -/
def CacheState.get_cached_object (c : CacheState) (object_id : String) :
    Option CatalogObject :=
  (c.entries.find? (fun e => e.1 == object_id)).map (fun e => e.2)

/-- Replace the value stored under key `k` (used by `save_object`). -/
def replaceEntry (es : List (String × CatalogObject)) (k : String)
    (v : CatalogObject) : List (String × CatalogObject) :=
  es.map (fun e => if e.1 == k then (k, v) else e)

/-- Modelled from the spec: `save` MUST NOT downgrade an existing detail
record unless the incoming record is itself a detail record or no record
currently exists (§4.1 anti-data-loss invariant). -/
def CacheState.save_object (c : CacheState) (object_id : String)
    (obj : CatalogObject) : CacheState :=
  match c.get_cached_object object_id with
  | some existing =>
      if existing.has_property_sets && !obj.has_property_sets then c
      else { c with entries := replaceEntry c.entries object_id obj }
  | none => { c with entries := c.entries ++ [(object_id, obj)] }

/-- `list_cached_objects`: all cached objects. -/
def CacheState.list_cached_objects (c : CacheState) : List CatalogObject :=
  c.entries.map (fun e => e.2)

/-- Modelled from the spec: a cache is fresh iff its stored release tag
matches the source's current release tag (exact equality, §4.1). -/
def CacheState.is_cache_fresh (c : CacheState) (current_release : Option ReleaseInfo) :
    Bool :=
  match c.release, current_release with
  | some stored, some current => stored == current
  | _, _ => false

/-- `update_metadata`: store the object count and release tag. -/
def CacheState.update_metadata (c : CacheState) (count : Nat)
    (release : Option ReleaseInfo) : CacheState :=
  { c with object_count := count, release := release }

/-- `save_object` lifted to the optional cache dependency
(`cache_repo: CacheRepository | None`); `none` means no cache configured. -/
def saveObjectOpt (cache : Option CacheState) (object_id : String)
    (obj : CatalogObject) : Option CacheState :=
  match cache with
  | some c => some (c.save_object object_id obj)
  | none => none

/-! ## Cache coverage (src/fdk_mcp/domain/repositories/cache_repository.py,
src/fdk_mcp/use_cases/get_cache_coverage.py) -/

/-- Detailed statistics about cache coverage.  `coverage_percentage` is a
Python float; it is modelled as an exact rational.  The float-valued
download-time estimate is modelled in whole seconds (its rounding is a
heuristic no claim depends on). -/
structure CacheCoverageStats where
  total_objects : Nat
  cached_with_details : Nat
  cached_summary_only : Nat
  not_cached : Nat
  coverage_percentage : ℚ
  estimated_download_time_seconds : Option Nat := none
  missing_object_ids : Option (List String) := none
deriving DecidableEq, Repr

/-- Coverage bucket of a single id (spec §4.2): detail-cached,
summary-cached, or missing. -/
inductive CoverageBucket where
  | detail
  | summaryOnly
  | missing
deriving DecidableEq, Repr

/-- Modelled from the spec (§4.2): bucket one id against the cache. -/
def CacheState.classify (c : CacheState) (object_id : String) : CoverageBucket :=
  match c.get_cached_object object_id with
  | some o => if o.has_property_sets then .detail else .summaryOnly
  | none => .missing

/-- Modelled from the spec (§4.2): `get_cache_coverage` of the missing
`FileCacheRepository`.  Buckets every id, computes
`coverage_percentage = detail_count / total * 100` (0 when total is 0) and
a fixed-throughput download-time estimate (~20 objects per 0.5s). -/
def CacheState.get_cache_coverage (c : CacheState) (all_object_ids : List String) :
    CacheCoverageStats :=
  let detail := all_object_ids.countP (fun i => c.classify i == .detail)
  let summary := all_object_ids.countP (fun i => c.classify i == .summaryOnly)
  let missing := all_object_ids.countP (fun i => c.classify i == .missing)
  let total := all_object_ids.length
  { total_objects := total
    cached_with_details := detail
    cached_summary_only := summary
    not_cached := missing
    coverage_percentage := if 0 < total then (detail : ℚ) / (total : ℚ) * 100 else 0
    estimated_download_time_seconds :=
      if 0 < missing + summary then some ((missing + summary) / 2) else none
    missing_object_ids := none }

/-- Python `str.lower()`, character-wise (a kernel-reducible replacement
for `String.toLower`; both lower-case character by character). -/
def strToLower (s : String) : String := ⟨s.data.map Char.toLower⟩

/-! ## Shared helper: `_filter_by_domain`

The same static method appears in download_catalog.py, update_cache.py,
advanced_search.py and inline in get_cache_coverage.py. -/

/-- Keep the objects whose lower-cased domain equals the lower-cased filter. -/
def filterByDomain (objects : List CatalogObject) (domain_filter : String) :
    List CatalogObject :=
  let domain_lower := strToLower domain_filter
  objects.filter (fun obj => strToLower obj.domain == domain_lower)

/-! ## GetCacheCoverageUseCase (src/fdk_mcp/use_cases/get_cache_coverage.py) -/

namespace GetCacheCoverageUseCase

/-- Request for cache coverage analysis. -/
structure Request where
  language : String := "de"
  domain_filter : Option String := none

/-- `GetCacheCoverageUseCase.execute`: fetch the summary listing, filter by
domain, then either report everything as missing (no cache configured) or
delegate to the cache's coverage analysis. -/
def execute (catalog : Catalog) (cache : Option CacheState) (request : Request) :
    Except CatalogErr CacheCoverageStats := do
  let response ← catalog.fetch_all_objects request.language
  let all_objects :=
    match request.domain_filter with
    | some f => filterByDomain response.objects f
    | none => response.objects
  let all_object_ids := all_objects.map (fun obj => obj.id)
  match cache with
  | none =>
      let total := all_object_ids.length
      let estimated_time := if 0 < total then some (total / 2) else none
      pure
        { total_objects := total
          cached_with_details := 0
          cached_summary_only := 0
          not_cached := total
          coverage_percentage := 0
          estimated_download_time_seconds := estimated_time
          missing_object_ids :=
            if all_object_ids.isEmpty then none else some all_object_ids }
  | some c => pure (c.get_cache_coverage all_object_ids)

end GetCacheCoverageUseCase

/-! ## Per-item retry loop

`DownloadCatalogUseCase._download_with_retry` and
`UpdateCacheUseCase._download_with_retry` are textually identical methods;
they are embedded once.  Besides the success flag and the updated cache,
the embedding records the trace of the loop: the attempt indices tried and
the backoff delays slept (in seconds), so that retry/backoff behaviour is
provable. -/

/-- Result of one `_download_with_retry` call, with its observable trace. -/
structure RetryResult where
  success : Bool
  cache : Option CacheState
  tried : List Nat
  delays : List Nat
deriving Repr

/-- Body of `for attempt in range(max_retries)`: `attempt` is the current
loop index, `remaining` the number of loop iterations left (initially
`max_retries`).  On success the object is saved to the cache and the loop
returns `True`; on an exception the last attempt returns `False`, otherwise
the loop sleeps `2 ** attempt` seconds and continues. -/
def downloadWithRetryGo (fetch : Nat → Except CatalogErr CatalogObject)
    (cache : Option CacheState) (object_id : String) (max_retries : Nat) :
    Nat → Nat → RetryResult
  | _, 0 => { success := false, cache := cache, tried := [], delays := [] }
  | attempt, n + 1 =>
      match fetch attempt with
      | .ok obj =>
          { success := true, cache := saveObjectOpt cache object_id obj,
            tried := [attempt], delays := [] }
      | .error _ =>
          if attempt == max_retries - 1 then
            { success := false, cache := cache, tried := [attempt], delays := [] }
          else
            let r := downloadWithRetryGo fetch cache object_id max_retries (attempt + 1) n
            { r with tried := attempt :: r.tried, delays := 2 ^ attempt :: r.delays }

/-- `_download_with_retry(object_id, language, max_retries=3)`, with the
per-attempt outcomes supplied by the `fetch` oracle. -/
def downloadWithRetry (fetch : Nat → Except CatalogErr CatalogObject)
    (cache : Option CacheState) (object_id : String) (max_retries : Nat := 3) :
    RetryResult :=
  downloadWithRetryGo fetch cache object_id max_retries 0 max_retries

/-! ## DownloadCatalogUseCase (src/fdk_mcp/use_cases/download_catalog.py) -/

namespace DownloadCatalogUseCase

/-- Statistics about the download operation (`duration_seconds` omitted:
wall-clock time is not modelled). -/
structure DownloadStats where
  total_objects : Nat
  downloaded : Nat
  cached : Nat
  failed : Nat
deriving DecidableEq, Repr

/-- Request parameters for downloading the catalog. -/
structure Request where
  language : String := "en"
  domain_filter : Option String := none
  max_concurrent : Nat := 10

/-- One `download_one` task: run the retry loop for the object's id and
bump either the success or the failure counter.  The concurrent
`asyncio.gather` is sequentialised in request order (counter updates are
commutative, and cache saves are keyed upserts). -/
def downloadStep (catalog : Catalog) (language : String)
    (acc : Nat × Nat × Option CacheState) (obj : CatalogObject) :
    Nat × Nat × Option CacheState :=
  let r := downloadWithRetry
    (fun attempt => catalog.fetch_object_by_id obj.id language attempt)
    acc.2.2 obj.id 3
  if r.success then (acc.1 + 1, acc.2.1, r.cache) else (acc.1, acc.2.1 + 1, r.cache)

/-- `DownloadCatalogUseCase.execute`: list the catalog, filter by domain,
download every object with per-item retry, then update the cache metadata. -/
def execute (catalog : Catalog) (cache : Option CacheState) (request : Request) :
    Except CatalogErr (DownloadStats × Option CacheState) := do
  let response ← catalog.fetch_all_objects request.language
  let all_objects :=
    match request.domain_filter with
    | some f => filterByDomain response.objects f
    | none => response.objects
  if all_objects.isEmpty then
    pure ({ total_objects := 0, downloaded := 0, cached := 0, failed := 0 }, cache)
  else
    let total := all_objects.length
    let acc := all_objects.foldl (downloadStep catalog request.language) (0, 0, cache)
    let cache' :=
      match acc.2.2 with
      | some c => some (c.update_metadata response.total_count response.release)
      | none => none
    pure
      ({ total_objects := total, downloaded := acc.1, cached := acc.1,
         failed := acc.2.1 }, cache')

end DownloadCatalogUseCase

/-! ## UpdateCacheUseCase (src/fdk_mcp/use_cases/update_cache.py) -/

namespace UpdateCacheUseCase

/-- Statistics about the cache update operation (`duration_seconds`
omitted). -/
structure UpdateStats where
  total_objects : Nat
  downloaded : Nat
  already_cached : Nat
  failed : Nat
deriving DecidableEq, Repr

/-- Request parameters for updating the cache. -/
structure Request where
  language : String := "en"
  domain_filter : Option String := none
  force_refresh : Bool := false
  max_concurrent : Nat := 10

/-- `_find_objects_to_download`: everything on force refresh, otherwise the
objects that are missing from the cache or cached summary-only.  (The
Python builds a dict from `list_cached_objects()` and looks ids up in it;
with uniquely keyed cache entries that lookup is `get_cached_object`.) -/
def findObjectsToDownload (c : CacheState) (all_objects : List CatalogObject)
    (force_refresh : Bool) : List CatalogObject :=
  if force_refresh then all_objects
  else
    all_objects.filter (fun obj =>
      match c.get_cached_object obj.id with
      | none => true
      | some cached_obj => !cached_obj.has_property_sets)

/-- `UpdateCacheUseCase.execute`: with no cache return empty stats; else
list the catalog, filter by domain, download the missing/summary-only
objects with per-item retry, and update the cache metadata. -/
def execute (catalog : Catalog) (cache : Option CacheState) (request : Request) :
    Except CatalogErr (UpdateStats × Option CacheState) :=
  match cache with
  | none =>
      pure ({ total_objects := 0, downloaded := 0, already_cached := 0,
              failed := 0 }, none)
  | some c => do
      let response ← catalog.fetch_all_objects request.language
      let all_objects :=
        match request.domain_filter with
        | some f => filterByDomain response.objects f
        | none => response.objects
      if all_objects.isEmpty then
        pure ({ total_objects := 0, downloaded := 0, already_cached := 0,
                failed := 0 }, some c)
      else
        let objects_to_download := findObjectsToDownload c all_objects request.force_refresh
        let total_objects := all_objects.length
        let already_cached := total_objects - objects_to_download.length
        if objects_to_download.isEmpty then
          pure ({ total_objects := total_objects, downloaded := 0,
                  already_cached := already_cached, failed := 0 }, some c)
        else
          let acc := objects_to_download.foldl
            (DownloadCatalogUseCase.downloadStep catalog request.language)
            (0, 0, some c)
          let cache' :=
            match acc.2.2 with
            | some c' => some (c'.update_metadata response.total_count response.release)
            | none => none
          pure
            ({ total_objects := total_objects, downloaded := acc.1,
               already_cached := already_cached, failed := acc.2.1 }, cache')

end UpdateCacheUseCase

/-! ## AdvancedSearchUseCase (src/fdk_mcp/use_cases/advanced_search.py) -/

/-- Match mode for search operations. -/
inductive MatchMode where
  | contains
  | equals
  | starts_with
  | ends_with
deriving DecidableEq, Repr

/-- A single search match result. -/
structure SearchMatch where
  object_id : String
  object_name : String
  domain : String
  field : String
  match_path : String
  matched_value : String
  property_set_name : Option String := none
deriving DecidableEq, Repr

namespace AdvancedSearchUseCase

/-- Request parameters for advanced search.  `limit` is the optional
non-negative result limit (`matches[:limit]`). -/
structure Request where
  search_fields : List String
  query : String
  domain_filter : Option String := none
  match_mode : MatchMode := .contains
  case_sensitive : Bool := false
  language : String := "en"
  limit : Option Nat := none

/-- Response containing advanced search results.  The Python field
`matches` is a reserved word in Lean and is embedded as `found`. -/
structure Response where
  found : List SearchMatch
  total_matches : Nat
deriving DecidableEq, Repr

/-- `_match_value`: optionally lower-case both sides then compare under the
match mode (Python `in`, `==`, `startswith`, `endswith`). -/
def matchValue (value query : String) (match_mode : MatchMode)
    (case_sensitive : Bool) : Bool :=
  let v := if case_sensitive then value else strToLower value
  let q := if case_sensitive then query else strToLower query
  match match_mode with
  | .contains => decide (List.IsInfix q.toList v.toList)
  | .equals => v == q
  | .starts_with => q.toList.isPrefixOf v.toList
  | .ends_with => q.toList.isSuffixOf v.toList

/- Heterogeneous value searched by `_search_in_value` (string / list /
dict).  The list and map spines are their own inductives so that the
recursive walker is structurally recursive. -/
mutual
inductive JValue where
  | str (s : String)
  | list (items : JList)
  | map (entries : JMap)
inductive JList where
  | nil
  | cons (hd : JValue) (tl : JList)
inductive JMap where
  | nil
  | cons (key : String) (val : JValue) (tl : JMap)
end

/-- Wrap a list of strings as a `JValue` list. -/
def JList.ofStrings : List String → JList
  | [] => .nil
  | s :: rest => .cons (.str s) (JList.ofStrings rest)

/- `_search_in_value`: recursively search a value, building the JSON-ish
path (`path.key` for dict keys, `path[i]` for list indices); a matching
string is recorded as a `(path, value)` pair. -/
mutual
def searchInValue (query : String) (match_mode : MatchMode) (case_sensitive : Bool) :
    JValue → String → List (String × String)
  | .str s, current_path =>
      if matchValue s query match_mode case_sensitive then [(current_path, s)] else []
  | .map entries, current_path =>
      searchInMapEntries query match_mode case_sensitive entries current_path
  | .list items, current_path =>
      searchInListItems query match_mode case_sensitive items current_path 0
def searchInMapEntries (query : String) (match_mode : MatchMode)
    (case_sensitive : Bool) : JMap → String → List (String × String)
  | .nil, _ => []
  | .cons key val tl, current_path =>
      let new_path := if current_path == "" then key else current_path ++ "." ++ key
      searchInValue query match_mode case_sensitive val new_path ++
        searchInMapEntries query match_mode case_sensitive tl current_path
def searchInListItems (query : String) (match_mode : MatchMode)
    (case_sensitive : Bool) : JList → String → Nat → List (String × String)
  | .nil, _, _ => []
  | .cons hd tl, current_path, idx =>
      searchInValue query match_mode case_sensitive hd
          (current_path ++ "[" ++ toString idx ++ "]") ++
        searchInListItems query match_mode case_sensitive tl current_path (idx + 1)
end

/-- `_get_field_value`: the `field_map` dict lookup (absent keys and a
`None` description both yield `None`). -/
def getFieldValue (obj : CatalogObject) (field : String) : Option JValue :=
  if field == "name" then some (.str obj.name)
  else if field == "domain" then some (.str obj.domain)
  else if field == "description" then obj.description.map .str
  else if field == "classifications" then some (.list (JList.ofStrings obj.classifications))
  else none

/-- `_search_in_property_sets`: match against each PropertySet name. -/
def searchInPropertySets (obj : CatalogObject) (request : Request) : List SearchMatch :=
  obj.property_sets.foldl
    (fun found pset =>
      if matchValue pset.name request.query request.match_mode request.case_sensitive then
        found ++
          [{ object_id := obj.id, object_name := obj.name, domain := obj.domain,
             field := "propertySets", match_path := pset.name,
             matched_value := pset.name, property_set_name := some pset.name }]
      else found) []

/-- `_search_in_properties`: match each property's name, then its value
when the value is a string. -/
def searchInProperties (obj : CatalogObject) (request : Request) : List SearchMatch :=
  obj.property_sets.foldl
    (fun found pset =>
      pset.properties.foldl
        (fun found prop =>
          let found :=
            if matchValue prop.name request.query request.match_mode request.case_sensitive then
              found ++
                [{ object_id := obj.id, object_name := obj.name, domain := obj.domain,
                   field := "properties", match_path := pset.name ++ "." ++ prop.name,
                   matched_value := prop.name, property_set_name := some pset.name }]
            else found
          match prop.value with
          | .str s =>
              if matchValue s request.query request.match_mode request.case_sensitive then
                found ++
                  [{ object_id := obj.id, object_name := obj.name, domain := obj.domain,
                     field := "properties", match_path := pset.name ++ "." ++ prop.name,
                     matched_value := s, property_set_name := some pset.name }]
              else found
          | _ => found)
        found)
    []

/-- `_search_in_field`: dispatch on the field, then convert the recursive
search results into `SearchMatch` records. -/
def searchInField (obj : CatalogObject) (field : String) (request : Request) :
    List SearchMatch :=
  if field == "properties" then searchInProperties obj request
  else if field == "propertySets" then searchInPropertySets obj request
  else
    match getFieldValue obj field with
    | none => []
    | some field_value =>
        (searchInValue request.query request.match_mode request.case_sensitive
            field_value field).map
          (fun result =>
            { object_id := obj.id, object_name := obj.name, domain := obj.domain,
              field := field, match_path := result.1, matched_value := result.2 })

/-- `_determine_search_fields`: the sentinel "all" means the simple string
fields. -/
def determineSearchFields (search_fields : List String) : List String :=
  if search_fields.contains "all" then ["name", "domain", "description"]
  else search_fields

/-- `_needs_detail_object`: searching a detail field on an object without
property sets. -/
def needsDetailObject (search_fields : List String) (obj : CatalogObject) : Bool :=
  let detail_fields := ["property_sets", "propertySets", "properties",
    "relationships", "classifications", "description"]
  (search_fields.contains "all" ||
      search_fields.any (fun field => detail_fields.contains field)) &&
    !obj.has_property_sets

/-- `_ensure_detail_object`: fetch the detail object (first call for this
id), cache it on success, fall back to the original object on failure. -/
def ensureDetailObject (catalog : Catalog) (cache : Option CacheState)
    (obj : CatalogObject) (language : String) : CatalogObject × Option CacheState :=
  match catalog.fetch_object_by_id obj.id language 0 with
  | .ok detail_obj => (detail_obj, saveObjectOpt cache obj.id detail_obj)
  | .error _ => (obj, cache)

/-- `_batch_ensure_details`: replace each object that needs detail data by
its fetched detail version (keeping the original on failure).  The
semaphore-gated `asyncio.gather` reassembles results by index; the cache
saves are sequentialised in request order. -/
def batchEnsureDetails (catalog : Catalog) (search_fields : List String)
    (language : String) :
    Option CacheState → List CatalogObject → List CatalogObject × Option CacheState
  | cache, [] => ([], cache)
  | cache, obj :: rest =>
      if needsDetailObject search_fields obj then
        let (obj', cache') := ensureDetailObject catalog cache obj language
        let (rest', cache'') := batchEnsureDetails catalog search_fields language cache' rest
        (obj' :: rest', cache'')
      else
        let (rest', cache') := batchEnsureDetails catalog search_fields language cache rest
        (obj :: rest', cache')

/-- `_ensure_cache_fresh`: nothing without a cache; otherwise fetch the
listing and, when the cache is stale, save every summary object and update
the metadata. -/
def ensureCacheFresh (catalog : Catalog) (cache : Option CacheState)
    (language : String) : Except CatalogErr (Option CacheState) :=
  match cache with
  | none => pure none
  | some c => do
      let response ← catalog.fetch_all_objects language
      if c.is_cache_fresh response.release then pure (some c)
      else
        let c' := response.objects.foldl (fun acc obj => acc.save_object obj.id obj) c
        pure (some (c'.update_metadata response.total_count response.release))

/-- `_get_objects`: the cached objects when the cache is non-empty, else
the live listing. -/
def getObjects (catalog : Catalog) (cache : Option CacheState) (language : String) :
    Except CatalogErr (List CatalogObject) :=
  match cache with
  | some c =>
      if !c.list_cached_objects.isEmpty then pure c.list_cached_objects
      else do
        let response ← catalog.fetch_all_objects language
        pure response.objects
  | none => do
      let response ← catalog.fetch_all_objects language
      pure response.objects

/-- Everything `execute` does before the limit is applied: refresh the
cache, resolve and domain-filter the candidate objects, batch-upgrade the
ones needing detail data, and collect every match. -/
def collectMatches (catalog : Catalog) (cache : Option CacheState)
    (request : Request) : Except CatalogErr (List SearchMatch × Option CacheState) := do
  let cache ← ensureCacheFresh catalog cache request.language
  let objects ← getObjects catalog cache request.language
  let objects :=
    match request.domain_filter with
    | some f => filterByDomain objects f
    | none => objects
  let (objects, cache) :=
    batchEnsureDetails catalog request.search_fields request.language cache objects
  let found := objects.flatMap
    (fun obj =>
      (determineSearchFields request.search_fields).flatMap
        (fun field => searchInField obj field request))
  pure (found, cache)

/-- `AdvancedSearchUseCase.execute`: collect all matches, record the total
before truncation, then apply the limit. -/
def execute (catalog : Catalog) (cache : Option CacheState) (request : Request) :
    Except CatalogErr (Response × Option CacheState) := do
  let (found, cache) ← collectMatches catalog cache request
  let total_matches := found.length
  let found :=
    match request.limit with
    | some n => found.take n
    | none => found
  pure ({ found := found, total_matches := total_matches }, cache)

end AdvancedSearchUseCase

/-! ## GetObjectUseCase (src/fdk_mcp/use_cases/get_object.py) -/

namespace GetObjectUseCase

/-- Request parameters for getting a single catalog object. -/
structure Request where
  object_id : String
  language : String := "en"

/-- Response containing a single catalog object. -/
structure Response where
  object : CatalogObject
  from_cache : Bool := false
deriving DecidableEq, Repr

/-- `GetObjectUseCase.execute`: cached detail object first; else fetch from
the API (first call for this id) and cache the result; on a fetch error
fall back to any cached record, re-raising when none exists. -/
def execute (catalog : Catalog) (cache : Option CacheState) (request : Request) :
    Except CatalogErr (Response × Option CacheState) :=
  let step1 : Option CatalogObject :=
    match cache with
    | some c =>
        match c.get_cached_object request.object_id with
        | some cached_obj =>
            if cached_obj.has_property_sets then some cached_obj else none
        | none => none
    | none => none
  match step1 with
  | some cached_obj => pure ({ object := cached_obj, from_cache := true }, cache)
  | none =>
      match catalog.fetch_object_by_id request.object_id request.language 0 with
      | .ok obj =>
          pure ({ object := obj, from_cache := false },
            saveObjectOpt cache request.object_id obj)
      | .error e =>
          match cache with
          | some c =>
              match c.get_cached_object request.object_id with
              | some cached_obj =>
                  pure ({ object := cached_obj, from_cache := true }, cache)
              | none => .error e
          | none => .error e

end GetObjectUseCase

/-! ## GroupObjectsUseCase (src/fdk_mcp/use_cases/group_objects.py) -/

namespace GroupObjectsUseCase

/-- `group_by` argument: `GroupField | list[GroupField] | None`. -/
inductive GroupByArg where
  | noGroup
  | single (field : String)
  | multiple (fields : List String)

/-- Python truthiness of the `group_by` argument (`if not request.group_by`
takes the sort-only path for `None`, `""` and `[]`). -/
def GroupByArg.isTruthy : GroupByArg → Bool
  | .noGroup => false
  | .single field => field != ""
  | .multiple fields => !fields.isEmpty

/-- Request for grouping and sorting objects. -/
structure Request where
  object_ids : List String
  group_by : GroupByArg := .noGroup
  sort_by : Option String := none
  order : String := "asc"
  include_count : Bool := true
  language : String := "de"

/- The grouped result: a dict whose values are either object lists (leaf
buckets) or nested dicts, as produced by `_group_by_single` and
`_group_by_multiple`.  The dict spine is its own inductive so that the
recursive sort/count walkers are structurally recursive. -/
mutual
inductive GroupTree where
  | leaf (objs : List CatalogObject)
  | node (children : GroupDict)
inductive GroupDict where
  | nil
  | cons (key : String) (val : GroupTree) (tl : GroupDict)
end

/-- Container for grouped objects (the Lean field `groups` is the Python
`groups` dict). -/
structure GroupedObjects where
  groups : GroupDict
  total_objects : Nat
  group_counts : Option (List (String × Nat)) := none

/-- Response with grouped/sorted objects. -/
structure Response where
  result : GroupedObjects

/-- `_get_field_value`: extract a string-valued grouping/sorting key. -/
def getFieldValue (obj : CatalogObject) (field : String) : Option String :=
  if field == "domain" then some obj.domain
  else if field == "name" then some obj.name
  else if field == "id" then some obj.id
  else if field == "ifcClass" then
    match obj.classifications with
    | c :: _ => some c
    | [] => some "No IFC Class"
  else none

/-- `groups[key].append(obj)` on a `defaultdict(list)` represented as an
insertion-ordered association list. -/
def addToGroup (groups : List (String × List CatalogObject)) (key : String)
    (obj : CatalogObject) : List (String × List CatalogObject) :=
  match groups with
  | [] => [(key, [obj])]
  | (k, objs) :: rest =>
      if k == key then (k, objs ++ [obj]) :: rest
      else (k, objs) :: addToGroup rest key obj

/-- `_group_by_single`: bucket objects by the derived key; `propertySet`
adds the object to the bucket of every one of its property-set names, the
other fields add it to the bucket of its (truthy) field value. -/
def groupBySingle (objects : List CatalogObject) (field : String) :
    List (String × List CatalogObject) :=
  objects.foldl
    (fun groups obj =>
      if field == "propertySet" then
        obj.property_sets.foldl (fun gs pset => addToGroup gs pset.name obj) groups
      else
        match getFieldValue obj field with
        | some value => if value != "" then addToGroup groups value obj else groups
        | none => groups)
    []

/-- Lift a single-level grouping into the nested-dict shape. -/
def leavesOf : List (String × List CatalogObject) → GroupDict
  | [] => .nil
  | (k, objs) :: rest => .cons k (.leaf objs) (leavesOf rest)

/- `_group_by_multiple`: group by the first field, then recursively apply
the remaining fields inside each bucket. -/
mutual
def groupByMultiple : List CatalogObject → List String → GroupTree
  | objects, [] => .node (.cons "all" (.leaf objects) .nil)
  | objects, first_field :: remaining_fields =>
      let first_level := groupBySingle objects first_field
      if remaining_fields.isEmpty then .node (leavesOf first_level)
      else .node (groupBuckets first_level remaining_fields)
  termination_by _ fields => (fields.length, 0)
  decreasing_by
    simp_wf
    apply Prod.Lex.left
    omega
def groupBuckets : List (String × List CatalogObject) → List String → GroupDict
  | [], _ => .nil
  | (key, objs) :: rest, fields =>
      .cons key (groupByMultiple objs fields) (groupBuckets rest fields)
  termination_by buckets fields => (fields.length, buckets.length + 1)
  decreasing_by
    all_goals simp_wf
    all_goals
      first
      | apply Prod.Lex.left ; omega
      | apply Prod.Lex.right ; omega
end

/-- `_sort_objects`: stable sort by the string key, ascending or
descending; falsy `sort_by` (None or "") returns the list unchanged. -/
def sortObjects (objects : List CatalogObject) (sort_by : Option String)
    (order : String) : List CatalogObject :=
  match sort_by with
  | none => objects
  | some field =>
      if field == "" then objects
      else
        let key := fun obj => (getFieldValue obj field).getD ""
        if order == "desc" then objects.mergeSort (fun a b => decide (key b ≤ key a))
        else objects.mergeSort (fun a b => decide (key a ≤ key b))

/- `_sort_groups`: sort the object list of every leaf bucket, recursing
into nested dicts. -/
mutual
def sortGroupsTree : GroupTree → Option String → String → GroupTree
  | .leaf objs, sort_by, order => .leaf (sortObjects objs sort_by order)
  | .node children, sort_by, order => .node (sortGroupsDict children sort_by order)
def sortGroupsDict : GroupDict → Option String → String → GroupDict
  | .nil, _, _ => .nil
  | .cons key val tl, sort_by, order =>
      .cons key (sortGroupsTree val sort_by order) (sortGroupsDict tl sort_by order)
end

/- `_calculate_counts`: flatten the (possibly nested) grouping into a
path-to-count map, joining path segments with "/". -/
mutual
def calcCountsTree : GroupTree → String → List (String × Nat)
  | .leaf objs, pathAcc => [(pathAcc, objs.length)]
  | .node children, pathAcc => calcCountsDict children pathAcc
def calcCountsDict : GroupDict → String → List (String × Nat)
  | .nil, _ => []
  | .cons key val tl, pathAcc =>
      let new_path := if pathAcc == "" then key else pathAcc ++ "/" ++ key
      calcCountsTree val new_path ++ calcCountsDict tl pathAcc
end

/-- `_fetch_objects`: collect the cached objects, then fetch each missing
id (first call for that id), silently skipping failures and caching each
success; resolution order is cached objects first, then fetched ones. -/
def fetchObjects (catalog : Catalog) (cache : Option CacheState)
    (object_ids : List String) (language : String) :
    List CatalogObject × Option CacheState :=
  let split :=
    match cache with
    | some c =>
        object_ids.foldl
          (fun (acc : List CatalogObject × List String) oid =>
            match c.get_cached_object oid with
            | some cached => (acc.1 ++ [cached], acc.2)
            | none => (acc.1, acc.2 ++ [oid]))
          ([], [])
    | none => ([], object_ids)
  split.2.foldl
    (fun (acc : List CatalogObject × Option CacheState) oid =>
      match catalog.fetch_object_by_id oid language 0 with
      | .ok obj => (acc.1 ++ [obj], saveObjectOpt acc.2 obj.id obj)
      | .error _ => acc)
    (split.1, cache)

/-- `GroupObjectsUseCase.execute`: resolve the objects (cache first, else
best-effort fetch), then group and sort them.  The function is total: a
failed per-id fetch is dropped, never raised. -/
def execute (catalog : Catalog) (cache : Option CacheState) (request : Request) :
    Response × Option CacheState :=
  let fetched := fetchObjects catalog cache request.object_ids request.language
  let objects := fetched.1
  let cache' := fetched.2
  if !request.group_by.isTruthy then
    let sorted_objects := sortObjects objects request.sort_by request.order
    ({ result :=
        { groups := .cons "all" (.leaf sorted_objects) .nil
          total_objects := objects.length
          group_counts :=
            if request.include_count then some [("all", objects.length)] else none } },
      cache')
  else
    let groups : GroupTree :=
      match request.group_by with
      | .multiple fields => groupByMultiple objects fields
      | .single field => .node (leavesOf (groupBySingle objects field))
      | .noGroup => .node .nil
    let groups :=
      match request.sort_by with
      | some s => if s != "" then sortGroupsTree groups request.sort_by request.order else groups
      | none => groups
    let group_counts :=
      if request.include_count then some (calcCountsTree groups "") else none
    let groupsDict : GroupDict :=
      match groups with
      | .node children => children
      | .leaf objs => .cons "all" (.leaf objs) .nil
    ({ result :=
        { groups := groupsDict
          total_objects := objects.length
          group_counts := group_counts } },
      cache')

end GroupObjectsUseCase

/-! ## Bounded-concurrency model

The batch use cases gate their per-id fetch tasks with
`asyncio.Semaphore(max_concurrent)` and `async with semaphore:` around the
fetch.  The interleaving of tasks is modelled as a transition system: each
task is waiting, running (holding the semaphore, fetch in flight) or
finished; a waiting task may start only while fewer than `cap` tasks are
running (semaphore acquire), and a running task may finish at any time
(semaphore release). -/

/-- Phase of one semaphore-gated download task. -/
inductive TaskPhase where
  | waiting
  | running
  | finished
deriving DecidableEq, Repr

/-- Number of fetches currently in flight. -/
def runningCount (tasks : List TaskPhase) : Nat :=
  tasks.countP (fun t => t == TaskPhase.running)

/-- One scheduler step under a semaphore of size `cap`. -/
inductive SemStep (cap : Nat) : List TaskPhase → List TaskPhase → Prop
  | acquire (ts : List TaskPhase) (i : Nat) (hi : ts.get? i = some .waiting)
      (hcap : runningCount ts < cap) : SemStep cap ts (ts.set i .running)
  | release (ts : List TaskPhase) (i : Nat) (hi : ts.get? i = some .running) :
      SemStep cap ts (ts.set i .finished)

/-- States reachable from the batch's initial state (every queued id
waiting). -/
inductive SemReachable (cap : Nat) (init : List TaskPhase) :
    List TaskPhase → Prop
  | refl : SemReachable cap init init
  | step {s t : List TaskPhase} (hs : SemReachable cap init s)
      (hst : SemStep cap s t) : SemReachable cap init t

/-- The semaphore size hard-coded in
`AdvancedSearchUseCase._batch_ensure_details` (`max_concurrent = 20`). -/
def batchEnsureDetailsMaxConcurrent : Nat := 20

/-- The semaphore size hard-coded in `GroupObjectsUseCase._fetch_objects`
(`max_concurrent = 20`). -/
def fetchObjectsMaxConcurrent : Nat := 20

/-! # Theorems -/

/-! ## C8: three attempts, exponential backoff -/

/-- C8: in `_download_with_retry` (shared by `DownloadCatalogUseCase` and
`UpdateCacheUseCase`) the fetch is attempted at most 3 times; the delay
slept after each failed non-final attempt `k` is `2 ^ k` seconds (so the
delays are 1s then 2s); and the item is reported failed only after all 3
attempts were made. -/
theorem retry_three_attempts_with_backoff
    (fetch : Nat → Except CatalogErr CatalogObject) (cache : Option CacheState)
    (object_id : String) :
    (downloadWithRetry fetch cache object_id 3).tried.length ≤ 3 ∧
    (downloadWithRetry fetch cache object_id 3).delays =
      (downloadWithRetry fetch cache object_id 3).tried.dropLast.map (fun k => 2 ^ k) ∧
    ((downloadWithRetry fetch cache object_id 3).success = false →
      (downloadWithRetry fetch cache object_id 3).tried = [0, 1, 2]) := by
  cases h0 : fetch 0 <;> cases h1 : fetch 1 <;> cases h2 : fetch 2 <;>
    simp [downloadWithRetry, downloadWithRetryGo, h0, h1, h2]

/-- C8 witness: with an always-failing oracle, the retry loop makes the
three attempts 0, 1, 2 with backoff delays 1s and 2s. -/
theorem retry_three_attempts_with_backoff_witness :
    (downloadWithRetry (fun _ => .error (.catalogError "boom")) none "OBJ_1" 3).tried
      = [0, 1, 2] :=
  (retry_three_attempts_with_backoff (fun _ => .error (.catalogError "boom"))
    none "OBJ_1").2.2 rfl

/-! ## C3: not-found failures and the retry loop -/

/-- C3 counterexample: a fetch that answers 404 (`ObjectNotFoundError`) on
every call is retried like any other failure — the item goes through
attempts 0, 1, 2 with backoff sleeps of 1s and 2s instead of failing
immediately on the first not-found response (both `_download_with_retry`
methods catch bare `Exception`). -/
theorem not_found_is_retried :
    (downloadWithRetry (fun _ => .error (.objectNotFound "OBJ_MISSING"))
        none "OBJ_MISSING" 3).tried = [0, 1, 2] ∧
    (downloadWithRetry (fun _ => .error (.objectNotFound "OBJ_MISSING"))
        none "OBJ_MISSING" 3).delays = [1, 2] :=
  ⟨rfl, rfl⟩

/-- C3 (amended): the retry loop does not distinguish error kinds: every
per-item failure, not-found included, goes through the full retry loop —
any oracle that fails on every call (for any mix of `objectNotFound` and
`catalogError`) produces attempts 0, 1, 2 with delays 1s, 2s and only then
counts as failed. -/
theorem retry_ignores_error_kind
    (fetch : Nat → Except CatalogErr CatalogObject) (cache : Option CacheState)
    (object_id : String) (herr : ∀ k, ∃ e, fetch k = .error e) :
    (downloadWithRetry fetch cache object_id 3).success = false ∧
    (downloadWithRetry fetch cache object_id 3).tried = [0, 1, 2] ∧
    (downloadWithRetry fetch cache object_id 3).delays = [1, 2] := by
  obtain ⟨e0, h0⟩ := herr 0
  obtain ⟨e1, h1⟩ := herr 1
  obtain ⟨e2, h2⟩ := herr 2
  simp [downloadWithRetry, downloadWithRetryGo, h0, h1, h2]

/-- C3 witness for the amended claim: instantiated with the all-404
oracle. -/
theorem retry_ignores_error_kind_witness :
    (downloadWithRetry (fun _ => .error (.objectNotFound "OBJ_404")) none "OBJ_404" 3).success
        = false ∧
    (downloadWithRetry (fun _ => .error (.objectNotFound "OBJ_404")) none "OBJ_404" 3).tried
        = [0, 1, 2] ∧
    (downloadWithRetry (fun _ => .error (.objectNotFound "OBJ_404")) none "OBJ_404" 3).delays
        = [1, 2] :=
  retry_ignores_error_kind (fun _ => .error (.objectNotFound "OBJ_404")) none "OBJ_404"
    (fun _ => ⟨.objectNotFound "OBJ_404", rfl⟩)

/-! ## C5: batch statistics partition the work -/

/-- Each `download_one` task bumps exactly one of the two counters. -/
lemma downloadStep_fold_sum (catalog : Catalog) (language : String)
    (objs : List CatalogObject) (s f : Nat) (cache : Option CacheState) :
    (objs.foldl (DownloadCatalogUseCase.downloadStep catalog language) (s, f, cache)).1 +
        (objs.foldl (DownloadCatalogUseCase.downloadStep catalog language) (s, f, cache)).2.1 =
      s + f + objs.length := by
  induction objs generalizing s f cache with
  | nil => simp
  | cons o rest ih =>
      simp only [List.foldl_cons]
      have hstep : DownloadCatalogUseCase.downloadStep catalog language (s, f, cache) o =
          (if (downloadWithRetry
                (fun attempt => catalog.fetch_object_by_id o.id language attempt)
                cache o.id 3).success
           then (s + 1, f, (downloadWithRetry
                (fun attempt => catalog.fetch_object_by_id o.id language attempt)
                cache o.id 3).cache)
           else (s, f + 1, (downloadWithRetry
                (fun attempt => catalog.fetch_object_by_id o.id language attempt)
                cache o.id 3).cache)) := rfl
      rw [hstep]
      cases hs : (downloadWithRetry
          (fun attempt => catalog.fetch_object_by_id o.id language attempt)
          cache o.id 3).success <;>
        simp only [hs, if_true, if_false, Bool.false_eq_true] <;>
        rw [ih] <;> simp <;> omega

/-- C5: the statistics of a completed batch partition the work:
`DownloadCatalogUseCase.execute` returns `downloaded + failed = total_objects`
and `UpdateCacheUseCase.execute` returns
`downloaded + already_cached + failed = total_objects`, whatever the
per-item outcomes. -/
theorem batch_stats_partition :
    (∀ (catalog : Catalog) (cache cache' : Option CacheState)
        (request : DownloadCatalogUseCase.Request)
        (stats : DownloadCatalogUseCase.DownloadStats),
        DownloadCatalogUseCase.execute catalog cache request = .ok (stats, cache') →
          stats.downloaded + stats.failed = stats.total_objects) ∧
    (∀ (catalog : Catalog) (cache cache' : Option CacheState)
        (request : UpdateCacheUseCase.Request)
        (stats : UpdateCacheUseCase.UpdateStats),
        UpdateCacheUseCase.execute catalog cache request = .ok (stats, cache') →
          stats.downloaded + stats.already_cached + stats.failed = stats.total_objects) := by
  constructor
  · intro catalog cache cache' request stats h
    unfold DownloadCatalogUseCase.execute at h
    cases hfa : catalog.fetch_all_objects request.language with
    | error e => rw [hfa] at h; exact absurd h (by simp [Bind.bind, Except.bind])
    | ok response =>
        rw [hfa] at h
        simp only [Bind.bind, Except.bind, pure, Except.pure] at h
        generalize (match request.domain_filter with
          | some f => filterByDomain response.objects f
          | none => response.objects) = all_objects at h
        have hsum := downloadStep_fold_sum catalog request.language all_objects 0 0 cache
        split at h <;>
          · injection h with h1
            injection h1 with hstats hcache
            subst hstats
            first
            | rfl
            | (simp only; omega)
  · intro catalog cache cache' request stats h
    cases cache with
    | none =>
        unfold UpdateCacheUseCase.execute at h
        simp only [pure, Except.pure] at h
        injection h with h1
        injection h1 with hstats hcache
        subst hstats
        rfl
    | some c =>
        unfold UpdateCacheUseCase.execute at h
        cases hfa : catalog.fetch_all_objects request.language with
        | error e => rw [hfa] at h; exact absurd h (by simp [Bind.bind, Except.bind])
        | ok response =>
            rw [hfa] at h
            simp only [Bind.bind, Except.bind, pure, Except.pure] at h
            generalize (match request.domain_filter with
              | some f => filterByDomain response.objects f
              | none => response.objects) = all_objects at h
            split at h
            · injection h with h1
              injection h1 with hstats hcache
              subst hstats
              rfl
            · have hle : (UpdateCacheUseCase.findObjectsToDownload c all_objects
                  request.force_refresh).length ≤ all_objects.length := by
                unfold UpdateCacheUseCase.findObjectsToDownload
                split
                · exact le_rfl
                · exact List.length_filter_le _ _
              have hsum := downloadStep_fold_sum catalog request.language
                (UpdateCacheUseCase.findObjectsToDownload c all_objects
                  request.force_refresh) 0 0 (some c)
              generalize htd : UpdateCacheUseCase.findObjectsToDownload c all_objects
                request.force_refresh = objects_to_download at h hle hsum
              split at h
              · rename_i hempty_td
                have h0 : objects_to_download.length = 0 := by
                  cases objects_to_download with
                  | nil => rfl
                  | cons a l => simp [List.isEmpty] at hempty_td
                injection h with h1
                injection h1 with hstats hcache
                subst hstats
                simp only
                omega
              · injection h with h1
                injection h1 with hstats hcache
                subst hstats
                simp only
                omega

/-- Witness fixture: summary object `OBJ_A`. -/
def objA : CatalogObject := { id := "OBJ_A", name := "Bridge A", domain := "Bridges" }

/-- Witness fixture: summary object `OBJ_B`. -/
def objB : CatalogObject := { id := "OBJ_B", name := "Tunnel B", domain := "Tunnels" }

/-- Witness fixture: detail version of `OBJ_A`. -/
def detailA : CatalogObject :=
  { objA with property_sets := [{ id := "PSET_1", name := "Dimensions" }] }

/-- Witness fixture: detail version of `OBJ_B`. -/
def detailB : CatalogObject :=
  { objB with property_sets := [{ id := "PSET_2", name := "Dimensions" }] }

/-- Witness fixture: a catalog listing `OBJ_A` and `OBJ_B`, where fetching
`OBJ_A` by id succeeds and fetching `OBJ_B` always fails transiently. -/
def wCatalog : Catalog :=
  { fetch_all_objects := fun _ =>
      .ok { objects := [objA, objB], total_count := 2,
            release := some { name := "v2024.1", date := "2024-01-15" } }
    fetch_object_by_id := fun object_id _ _ =>
      if object_id == "OBJ_A" then .ok detailA else .error (.catalogError "network") }

/-- Witness fixture: a cache that already holds both detail objects. -/
def wUpCache : CacheState :=
  { entries := [("OBJ_A", detailA), ("OBJ_B", detailB)] }

/-- C5 witness: a concrete download batch (`OBJ_A` succeeds, `OBJ_B`
fails: 1 + 1 = 2) and a concrete update batch (everything already cached:
0 + 2 + 0 = 2). -/
theorem batch_stats_partition_witness :
    ({ total_objects := 2, downloaded := 1, cached := 1, failed := 1 } :
        DownloadCatalogUseCase.DownloadStats).downloaded +
      ({ total_objects := 2, downloaded := 1, cached := 1, failed := 1 } :
        DownloadCatalogUseCase.DownloadStats).failed =
      ({ total_objects := 2, downloaded := 1, cached := 1, failed := 1 } :
        DownloadCatalogUseCase.DownloadStats).total_objects ∧
    ({ total_objects := 2, downloaded := 0, already_cached := 2, failed := 0 } :
        UpdateCacheUseCase.UpdateStats).downloaded +
      ({ total_objects := 2, downloaded := 0, already_cached := 2, failed := 0 } :
        UpdateCacheUseCase.UpdateStats).already_cached +
      ({ total_objects := 2, downloaded := 0, already_cached := 2, failed := 0 } :
        UpdateCacheUseCase.UpdateStats).failed =
      ({ total_objects := 2, downloaded := 0, already_cached := 2, failed := 0 } :
        UpdateCacheUseCase.UpdateStats).total_objects :=
  ⟨batch_stats_partition.1 wCatalog none none {}
      { total_objects := 2, downloaded := 1, cached := 1, failed := 1 } rfl,
    batch_stats_partition.2 wCatalog (some wUpCache) (some wUpCache) {}
      { total_objects := 2, downloaded := 0, already_cached := 2, failed := 0 } rfl⟩

/-! ## C4: cache coverage partition and percentage -/

/-- Every id lands in exactly one coverage bucket, so the three counts
partition the id list. -/
lemma countP_classify_partition (c : CacheState) (ids : List String) :
    ids.countP (fun i => c.classify i == .detail) +
      ids.countP (fun i => c.classify i == .summaryOnly) +
      ids.countP (fun i => c.classify i == .missing) = ids.length := by
  induction ids with
  | nil => rfl
  | cons x xs ih =>
      simp only [List.countP_cons]
      cases hx : c.classify x <;> simp [hx] <;> omega

/-- C4: the coverage report satisfies
`cached_with_details + cached_summary_only + not_cached = total_objects`;
`coverage_percentage = cached_with_details / total_objects * 100` for a
non-empty catalog and `0` for an empty one (no division by zero); with no
cache configured everything is `not_cached` and the percentage is `0`. -/
theorem coverage_partition (catalog : Catalog) (cache : Option CacheState)
    (request : GetCacheCoverageUseCase.Request) (stats : CacheCoverageStats)
    (h : GetCacheCoverageUseCase.execute catalog cache request = .ok stats) :
    stats.cached_with_details + stats.cached_summary_only + stats.not_cached =
        stats.total_objects ∧
    (0 < stats.total_objects →
      stats.coverage_percentage =
        (stats.cached_with_details : ℚ) / (stats.total_objects : ℚ) * 100) ∧
    (stats.total_objects = 0 → stats.coverage_percentage = 0) ∧
    (cache = none →
      stats.not_cached = stats.total_objects ∧ stats.cached_with_details = 0 ∧
        stats.coverage_percentage = 0) := by
  unfold GetCacheCoverageUseCase.execute at h
  cases hfa : catalog.fetch_all_objects request.language with
  | error e => rw [hfa] at h; exact absurd h (by simp [Bind.bind, Except.bind])
  | ok response =>
      rw [hfa] at h
      simp only [Bind.bind, Except.bind, pure, Except.pure] at h
      generalize ((match request.domain_filter with
        | some f => filterByDomain response.objects f
        | none => response.objects).map (fun obj : CatalogObject => obj.id)) =
          all_object_ids at h
      cases cache with
      | none =>
          injection h with h1
          subst h1
          refine ⟨by simp, by simp, by simp, fun _ => ⟨rfl, rfl, rfl⟩⟩
      | some c =>
          injection h with h1
          subst h1
          have hpart := countP_classify_partition c all_object_ids
          refine ⟨?_, ?_, ?_, by intro hnone; cases hnone⟩
          · unfold CacheState.get_cache_coverage
            simp only
            omega
          · intro hpos
            unfold CacheState.get_cache_coverage at hpos ⊢
            simp only at hpos ⊢
            rw [if_pos]
            exact hpos
          · intro hzero
            unfold CacheState.get_cache_coverage at hzero ⊢
            simp only at hzero ⊢
            rw [if_neg]
            omega

/-- Witness fixture: cache with `OBJ_A` detail-cached and `OBJ_B`
summary-cached. -/
def covCache : CacheState := { entries := [("OBJ_A", detailA), ("OBJ_B", objB)] }

/-- Witness fixture: the coverage report for `wCatalog` against
`covCache`. -/
def covStatsW : CacheCoverageStats :=
  { total_objects := 2, cached_with_details := 1, cached_summary_only := 1,
    not_cached := 0, coverage_percentage := ((1 : Nat) : ℚ) / ((2 : Nat) : ℚ) * 100,
    estimated_download_time_seconds := some 0 }

/-- C4 witness: over the two-object catalog with one detail-cached and one
summary-cached object, the report partitions (1 + 1 + 0 = 2) and the
percentage is 1 / 2 * 100 = 50. -/
theorem coverage_partition_witness :
    covStatsW.cached_with_details + covStatsW.cached_summary_only +
        covStatsW.not_cached = covStatsW.total_objects ∧
    (0 < covStatsW.total_objects →
      covStatsW.coverage_percentage =
        (covStatsW.cached_with_details : ℚ) / (covStatsW.total_objects : ℚ) * 100) :=
  have hmain := coverage_partition wCatalog (some covCache) {} covStatsW (by rfl)
  ⟨hmain.1, hmain.2.1⟩

/-! ## C7: single-object retrieval falls back to any cached record -/

/-- C7: when the live fetch for an id fails, `GetObjectUseCase.execute`
returns the cached record (detail or summary) with `from_cache = true`
whenever any cached record exists, and propagates the error when no cache
is configured or the id is not cached. -/
theorem get_object_stale_fallback (catalog : Catalog) (cache : Option CacheState)
    (request : GetObjectUseCase.Request) (e : CatalogErr)
    (hfail : catalog.fetch_object_by_id request.object_id request.language 0 = .error e) :
    (∀ c o, cache = some c → c.get_cached_object request.object_id = some o →
        GetObjectUseCase.execute catalog cache request =
          .ok ({ object := o, from_cache := true }, cache)) ∧
    (cache = none → GetObjectUseCase.execute catalog cache request = .error e) ∧
    (∀ c, cache = some c → c.get_cached_object request.object_id = none →
        GetObjectUseCase.execute catalog cache request = .error e) := by
  refine ⟨?_, ?_, ?_⟩
  · intro c o hc ho
    subst hc
    unfold GetObjectUseCase.execute
    simp only [ho, hfail]
    cases hps : o.has_property_sets <;> simp [hps, pure, Except.pure]
  · intro hc
    subst hc
    unfold GetObjectUseCase.execute
    simp only [hfail]
  · intro c hc ho
    subst hc
    unfold GetObjectUseCase.execute
    simp only [ho, hfail]

/-- Witness fixture: cache holding only the summary record of `OBJ_B`. -/
def staleCache : CacheState := { entries := [("OBJ_B", objB)] }

/-- C7 witness: fetching `OBJ_B` from `wCatalog` fails, and the cached
summary record is returned with `from_cache = true`; with no cache the same
request propagates the error. -/
theorem get_object_stale_fallback_witness :
    GetObjectUseCase.execute wCatalog (some staleCache) { object_id := "OBJ_B" } =
        .ok ({ object := objB, from_cache := true }, some staleCache) ∧
    GetObjectUseCase.execute wCatalog none { object_id := "OBJ_B" } =
        .error (.catalogError "network") :=
  ⟨(get_object_stale_fallback wCatalog (some staleCache) { object_id := "OBJ_B" }
      (.catalogError "network") rfl).1 staleCache objB rfl rfl,
    (get_object_stale_fallback wCatalog none { object_id := "OBJ_B" }
      (.catalogError "network") rfl).2.1 rfl⟩

/-! ## C2: totals are computed before truncation -/

/-- Everything before the final truncation ignores `request.limit`. -/
lemma collectMatches_limit_irrelevant (catalog : Catalog) (cache : Option CacheState)
    (request : AdvancedSearchUseCase.Request) (n : Option Nat) :
    AdvancedSearchUseCase.collectMatches catalog cache { request with limit := n } =
      AdvancedSearchUseCase.collectMatches catalog cache request := by
  cases request
  rfl

/-- C2: with `limit = n`, `AdvancedSearchUseCase.execute` returns at most
`n` matches, while `total_matches` is the unbounded match count: the length
of the match list the same request would return with no limit at all. -/
theorem advanced_search_total_before_truncation (catalog : Catalog)
    (cache c1 c2 : Option CacheState) (request : AdvancedSearchUseCase.Request)
    (n : Nat) (resp unresp : AdvancedSearchUseCase.Response)
    (hlim : request.limit = some n)
    (h : AdvancedSearchUseCase.execute catalog cache request = .ok (resp, c1))
    (hu : AdvancedSearchUseCase.execute catalog cache { request with limit := none } =
      .ok (unresp, c2)) :
    resp.found.length ≤ n ∧
    resp.total_matches = unresp.found.length ∧
    resp.total_matches = unresp.total_matches := by
  unfold AdvancedSearchUseCase.execute at h hu
  rw [collectMatches_limit_irrelevant] at hu
  cases hcm : AdvancedSearchUseCase.collectMatches catalog cache request with
  | error e =>
      rw [hcm] at h
      exact absurd h (by simp [Bind.bind, Except.bind])
  | ok p =>
      rw [hcm] at h hu
      simp only [Bind.bind, Except.bind, pure, Except.pure, hlim] at h hu
      injection h with h1
      injection h1 with hresp hc1
      injection hu with hu1
      injection hu1 with huresp huc2
      subst hresp
      subst huresp
      refine ⟨by simp, by simp, rfl⟩

/-- Witness fixture: the match of query "B" on `OBJ_A`'s name. -/
def matchA : SearchMatch :=
  { object_id := "OBJ_A", object_name := "Bridge A", domain := "Bridges",
    field := "name", match_path := "name", matched_value := "Bridge A" }

/-- Witness fixture: the match of query "B" on `OBJ_B`'s name. -/
def matchB : SearchMatch :=
  { object_id := "OBJ_B", object_name := "Tunnel B", domain := "Tunnels",
    field := "name", match_path := "name", matched_value := "Tunnel B" }

/-- Witness fixture: name search for "B" with `limit = 1`. -/
def wSearchReq : AdvancedSearchUseCase.Request :=
  { search_fields := ["name"], query := "B", limit := some 1 }

/-- C2 witness: the limited search returns 1 of the 2 matches but reports
`total_matches` equal to the unbounded match count 2. -/
theorem advanced_search_total_before_truncation_witness :
    ({ found := [matchA], total_matches := 2 } :
        AdvancedSearchUseCase.Response).found.length ≤ 1 ∧
    ({ found := [matchA], total_matches := 2 } :
        AdvancedSearchUseCase.Response).total_matches =
      ({ found := [matchA, matchB], total_matches := 2 } :
        AdvancedSearchUseCase.Response).found.length ∧
    ({ found := [matchA], total_matches := 2 } :
        AdvancedSearchUseCase.Response).total_matches =
      ({ found := [matchA, matchB], total_matches := 2 } :
        AdvancedSearchUseCase.Response).total_matches :=
  advanced_search_total_before_truncation wCatalog none none none wSearchReq 1
    { found := [matchA], total_matches := 2 }
    { found := [matchA, matchB], total_matches := 2 }
    rfl (by rfl) (by rfl)

/-! ## C1: saving never downgrades a cached detail object -/

/-- Detail-object test in terms of the `property_sets` list. -/
lemma has_property_sets_iff (o : CatalogObject) :
    o.has_property_sets = true ↔ o.property_sets ≠ [] := by
  unfold CatalogObject.has_property_sets
  cases o.property_sets <;> simp

/-- String equality tests commute. -/
lemma strBeq_comm (a b : String) : (a == b) = (b == a) := by
  by_cases h : a = b
  · subst h; rfl
  · rw [beq_eq_false_iff_ne.mpr h, beq_eq_false_iff_ne.mpr (Ne.symm h)]

/-- `find?` over `replaceEntry`: the entry for the replaced key is the new
pair, every other lookup is unchanged. -/
lemma find?_replaceEntry (es : List (String × CatalogObject)) (object_id : String)
    (obj : CatalogObject) (X : String) :
    (replaceEntry es object_id obj).find? (fun e => e.1 == X) =
      if X == object_id then
        (es.find? (fun e => e.1 == object_id)).map (fun _ => (object_id, obj))
      else es.find? (fun e => e.1 == X) := by
  induction es with
  | nil => by_cases hX : X == object_id <;> simp [replaceEntry, hX]
  | cons e es ih =>
      have hcons : replaceEntry (e :: es) object_id obj =
          (if e.1 == object_id then (object_id, obj) else e) ::
            replaceEntry es object_id obj := by
        simp [replaceEntry]
      rw [hcons]
      by_cases hid : e.1 == object_id
      · have hid' : e.1 = object_id := by simpa using hid
        rw [if_pos hid]
        by_cases hX : X == object_id
        · have hX' : X = object_id := by simpa using hX
          subst hX'
          rw [if_pos hX]
          rw [List.find?_cons_of_pos _ (by simp), List.find?_cons_of_pos _ (by simp [hid])]
          rfl
        · have hne : (object_id == X) = false := by
            rw [strBeq_comm]
            simpa using hX
          rw [if_neg (by simpa using hX)]
          rw [List.find?_cons_of_neg _ (by simp [hne]),
            List.find?_cons_of_neg _ (by
              simp only [hid']
              simp [hne])]
          rw [ih, if_neg (by simpa using hX)]
      · rw [if_neg hid]
        by_cases hX : X == object_id
        · have hX' : X = object_id := by simpa using hX
          subst hX'
          rw [if_pos hX]
          rw [List.find?_cons_of_neg _ (by simpa using hid),
            List.find?_cons_of_neg _ (by simpa using hid)]
          rw [ih, if_pos hX]
        · rw [if_neg hX]
          by_cases hex : e.1 == X
          · rw [List.find?_cons_of_pos _ (by simpa using hex),
              List.find?_cons_of_pos _ (by simpa using hex)]
          · rw [List.find?_cons_of_neg _ (by simpa using hex),
              List.find?_cons_of_neg _ (by simpa using hex)]
            rw [ih, if_neg hX]

/-- `find?` skips a prefix in which nothing satisfies the predicate. -/
lemma find?_append_of_none {p : String × CatalogObject → Bool}
    (es ts : List (String × CatalogObject)) (h : es.find? p = none) :
    (es ++ ts).find? p = ts.find? p := by
  induction es with
  | nil => rfl
  | cons e es ih =>
      by_cases hp : p e
      · rw [List.find?_cons_of_pos _ hp] at h
        cases h
      · rw [List.find?_cons_of_neg _ hp] at h
        rw [List.cons_append, List.find?_cons_of_neg _ hp]
        exact ih h

/-- `find?` returns the match found in a prefix. -/
lemma find?_append_of_some {p : String × CatalogObject → Bool}
    (es ts : List (String × CatalogObject)) (e : String × CatalogObject)
    (h : es.find? p = some e) : (es ++ ts).find? p = some e := by
  induction es with
  | nil => cases h
  | cons e0 es ih =>
      by_cases hp : p e0
      · rw [List.find?_cons_of_pos _ hp] at h
        rw [List.cons_append, List.find?_cons_of_pos _ hp]
        exact h
      · rw [List.find?_cons_of_neg _ hp] at h
        rw [List.cons_append, List.find?_cons_of_neg _ hp]
        exact ih h

/-- Characterisation of a lookup after `save_object`. -/
lemma get_cached_object_save (c : CacheState) (object_id : String)
    (obj : CatalogObject) (X : String) :
    (c.save_object object_id obj).get_cached_object X =
      if X == object_id then
        match c.get_cached_object object_id with
        | some existing =>
            if existing.has_property_sets && !obj.has_property_sets then some existing
            else some obj
        | none => some obj
      else c.get_cached_object X := by
  unfold CacheState.save_object
  cases hid : c.get_cached_object object_id with
  | none =>
      unfold CacheState.get_cached_object at hid ⊢
      cases hfe : List.find? (fun e => e.1 == object_id) c.entries with
      | some e => rw [hfe] at hid; cases hid
      | none =>
          simp only
          by_cases hX : X == object_id
          · have hX' : X = object_id := by simpa using hX
            subst hX'
            rw [if_pos hX, find?_append_of_none _ _ hfe,
              List.find?_cons_of_pos _ (by simp)]
            rfl
          · rw [if_neg hX]
            cases hfx : List.find? (fun e => e.1 == X) c.entries with
            | some e =>
                rw [find?_append_of_some _ _ _ hfx]
            | none =>
                have hne : (object_id == X) = false := by
                  rw [strBeq_comm]; simpa using hX
                rw [find?_append_of_none _ _ hfx,
                  List.find?_cons_of_neg _ (by simp [hne]), List.find?_nil]
  | some existing =>
      show (if (existing.has_property_sets && !obj.has_property_sets) = true then c
          else { entries := replaceEntry c.entries object_id obj,
                 release := c.release,
                 object_count := c.object_count }).get_cached_object X =
        if (X == object_id) = true then
          (if (existing.has_property_sets && !obj.has_property_sets) = true then
            some existing
           else some obj)
        else c.get_cached_object X
      by_cases hguard : (existing.has_property_sets && !obj.has_property_sets) = true
      · rw [if_pos hguard]
        by_cases hX : X == object_id
        · have hX' : X = object_id := by simpa using hX
          subst hX'
          rw [if_pos hX, if_pos hguard]
          exact hid
        · rw [if_neg hX]
      · rw [if_neg hguard]
        unfold CacheState.get_cached_object at hid ⊢
        simp only
        rw [find?_replaceEntry]
        by_cases hX : X == object_id
        · have hX' : X = object_id := by simpa using hX
          subst hX'
          rw [if_pos hX, if_pos hX, if_neg hguard]
          cases hfe : List.find? (fun e => e.1 == X) c.entries with
          | none => rw [hfe] at hid; cases hid
          | some e => rfl
        · rw [if_neg hX, if_neg hX]

/-- A single `save_object` call preserves detail-ness of any cached id. -/
lemma save_preserves_detail (c : CacheState) (X : String) (o : CatalogObject)
    (hX : c.get_cached_object X = some o) (hdet : o.property_sets ≠ [])
    (object_id : String) (obj : CatalogObject) :
    ∃ o', (c.save_object object_id obj).get_cached_object X = some o' ∧
      o'.property_sets ≠ [] := by
  rw [get_cached_object_save]
  by_cases hXi : X == object_id
  · have hX' : X = object_id := by simpa using hXi
    subst hX'
    rw [if_pos hXi, hX]
    by_cases hguard : (o.has_property_sets && !obj.has_property_sets) = true
    · refine ⟨o, ?_, hdet⟩
      show (if (o.has_property_sets && !obj.has_property_sets) = true then some o
          else some obj) = some o
      rw [if_pos hguard]
    · refine ⟨obj, ?_, ?_⟩
      · show (if (o.has_property_sets && !obj.has_property_sets) = true then some o
            else some obj) = some obj
        rw [if_neg hguard]
      · have ho : o.has_property_sets = true := (has_property_sets_iff o).mpr hdet
        simp only [ho, Bool.true_and, Bool.not_eq_true, Bool.not_eq_false] at hguard
        exact (has_property_sets_iff obj).mp (by simpa using hguard)
  · exact ⟨o, by rw [if_neg hXi]; exact hX, hdet⟩

/-- Any sequence of `save_object` calls preserves detail-ness. -/
lemma saves_preserve_detail (objs : List CatalogObject) (c : CacheState)
    (X : String) (o : CatalogObject)
    (hX : c.get_cached_object X = some o) (hdet : o.property_sets ≠ []) :
    ∃ o', (objs.foldl (fun acc obj => acc.save_object obj.id obj) c).get_cached_object X =
        some o' ∧ o'.property_sets ≠ [] := by
  induction objs generalizing c o with
  | nil => exact ⟨o, hX, hdet⟩
  | cons obj rest ih =>
      obtain ⟨o', ho', hdet'⟩ := save_preserves_detail c X o hX hdet obj.id obj
      simpa using ih (c.save_object obj.id obj) o' ho' hdet'

/-- C1: saving can never downgrade a cached detail object: if the cache
holds a detail record for id `X`, the record for `X` still has a non-empty
`property_sets` list after any `save_object` call (the incoming object
either has property sets itself, or the spec-modelled no-downgrade guard
keeps the existing record), after any sequence of saves, and in particular
after the summary refresh in `AdvancedSearchUseCase._ensure_cache_fresh`. -/
theorem save_object_never_downgrades (c : CacheState) (X : String) (o : CatalogObject)
    (hX : c.get_cached_object X = some o) (hdet : o.property_sets ≠ []) :
    (∀ object_id obj, ∃ o',
        (c.save_object object_id obj).get_cached_object X = some o' ∧
          o'.property_sets ≠ []) ∧
    (∀ objs : List CatalogObject, ∃ o',
        (objs.foldl (fun acc obj => acc.save_object obj.id obj) c).get_cached_object X =
            some o' ∧ o'.property_sets ≠ []) ∧
    (∀ (catalog : Catalog) (language : String) (c' : CacheState),
        AdvancedSearchUseCase.ensureCacheFresh catalog (some c) language = .ok (some c') →
          ∃ o', c'.get_cached_object X = some o' ∧ o'.property_sets ≠ []) := by
  refine ⟨fun object_id obj => save_preserves_detail c X o hX hdet object_id obj,
    fun objs => saves_preserve_detail objs c X o hX hdet, ?_⟩
  intro catalog language c' h
  unfold AdvancedSearchUseCase.ensureCacheFresh at h
  cases hfa : catalog.fetch_all_objects language with
  | error e => rw [hfa] at h; exact absurd h (by simp [Bind.bind, Except.bind])
  | ok response =>
      rw [hfa] at h
      simp only [Bind.bind, Except.bind, pure, Except.pure] at h
      split at h
      · injection h with h1
        injection h1 with h2
        subst h2
        exact ⟨o, hX, hdet⟩
      · injection h with h1
        injection h1 with h2
        subst h2
        exact saves_preserve_detail response.objects c X o hX hdet

/-- C1 witness: the detail record for `OBJ_A` survives saving the summary
record `objA` over it (and a whole summary-refresh pass). -/
theorem save_object_never_downgrades_witness :
    (∃ o', (wUpCache.save_object "OBJ_A" objA).get_cached_object "OBJ_A" = some o' ∧
        o'.property_sets ≠ []) ∧
    (∃ o', ([objA, objB].foldl (fun acc obj => acc.save_object obj.id obj)
          wUpCache).get_cached_object "OBJ_A" = some o' ∧ o'.property_sets ≠ []) :=
  have hmain := save_object_never_downgrades wUpCache "OBJ_A" detailA rfl (by simp [detailA])
  ⟨hmain.1 "OBJ_A" objA, hmain.2.1 [objA, objB]⟩

/-! ## C6: grouping by propertySet vs by domain -/

namespace GroupObjectsUseCase

/-- The object list stored under key `b` (empty when the bucket is
absent). -/
def lookupGroup (groups : List (String × List CatalogObject)) (b : String) :
    List CatalogObject :=
  ((groups.find? (fun g => g.1 == b)).map (fun g => g.2)).getD []

/-- Total number of occurrences of `obj` across all buckets. -/
def occurrencesInGroups (groups : List (String × List CatalogObject))
    (obj : CatalogObject) : Nat :=
  (groups.map (fun g => g.2.count obj)).sum

/-- `addToGroup` adds one occurrence of `o` and nothing else. -/
lemma occurrencesInGroups_addToGroup (gs : List (String × List CatalogObject))
    (k : String) (o obj : CatalogObject) :
    occurrencesInGroups (addToGroup gs k o) obj =
      occurrencesInGroups gs obj + (if o = obj then 1 else 0) := by
  induction gs with
  | nil =>
      simp only [addToGroup, occurrencesInGroups, List.map_cons, List.map_nil,
        List.sum_cons, List.sum_nil, List.count_cons, List.count_nil]
      by_cases h : o = obj <;> simp [h]
  | cons g gs ih =>
      obtain ⟨k0, objs⟩ := g
      by_cases hk : k0 == k
      · simp only [addToGroup, hk, if_true, occurrencesInGroups, List.map_cons,
          List.sum_cons, List.count_append, List.count_cons, List.count_nil]
        by_cases h : o = obj <;> (simp [h]; try omega)
      · simp only [addToGroup, hk, Bool.false_eq_true, if_false,
          occurrencesInGroups, List.map_cons, List.sum_cons] at ih ⊢
        rw [ih]
        omega

/-- Folding one object's property sets adds one occurrence per property
set. -/
lemma occurrencesInGroups_psetFold (ps : List PropertySet)
    (gs : List (String × List CatalogObject)) (o obj : CatalogObject) :
    occurrencesInGroups (ps.foldl (fun gs pset => addToGroup gs pset.name o) gs) obj =
      occurrencesInGroups gs obj + (if o = obj then ps.length else 0) := by
  induction ps generalizing gs with
  | nil => simp
  | cons p ps ih =>
      simp only [List.foldl_cons]
      rw [ih, occurrencesInGroups_addToGroup]
      by_cases h : o = obj <;> (simp [h]; try omega)

/-- `_group_by_single` with field `propertySet` is the property-set fold. -/
lemma groupBySingle_propertySet_eq (objects : List CatalogObject) :
    groupBySingle objects "propertySet" =
      objects.foldl
        (fun groups o => o.property_sets.foldl
          (fun gs pset => addToGroup gs pset.name o) groups) [] := by
  unfold groupBySingle
  congr 1

/-- `_group_by_single` with field `domain` buckets by non-empty domain. -/
lemma groupBySingle_domain_eq (objects : List CatalogObject) :
    groupBySingle objects "domain" =
      objects.foldl
        (fun groups o => if o.domain != "" then addToGroup groups o.domain o
          else groups) [] := by
  unfold groupBySingle getFieldValue
  congr 1

/-- Occurrence count under propertySet grouping: one per property set per
occurrence of the object in the input. -/
lemma occurrences_groupBySingle_propertySet (objects : List CatalogObject)
    (obj : CatalogObject) :
    occurrencesInGroups (groupBySingle objects "propertySet") obj =
      objects.count obj * obj.property_sets.length := by
  rw [groupBySingle_propertySet_eq]
  have main : ∀ (objects : List CatalogObject) (gs : List (String × List CatalogObject)),
      occurrencesInGroups
          (objects.foldl (fun groups o => o.property_sets.foldl
            (fun gs pset => addToGroup gs pset.name o) groups) gs) obj =
        occurrencesInGroups gs obj + objects.count obj * obj.property_sets.length := by
    intro objects
    induction objects with
    | nil => simp
    | cons o rest ih =>
        intro gs
        simp only [List.foldl_cons]
        rw [ih, occurrencesInGroups_psetFold]
        by_cases h : o = obj
        · subst h
          simp [List.count_cons]
          ring
        · rw [List.count_cons_of_ne (fun hh => h hh.symm)]
          simp [h]
  have := main objects []
  simpa [occurrencesInGroups] using this

/-- Occurrence count under domain grouping: exactly one per occurrence when
the domain is non-empty, zero otherwise. -/
lemma occurrences_groupBySingle_domain (objects : List CatalogObject)
    (obj : CatalogObject) :
    occurrencesInGroups (groupBySingle objects "domain") obj =
      if obj.domain = "" then 0 else objects.count obj := by
  rw [groupBySingle_domain_eq]
  have main : ∀ (objects : List CatalogObject) (gs : List (String × List CatalogObject)),
      occurrencesInGroups
          (objects.foldl (fun groups o => if o.domain != "" then
            addToGroup groups o.domain o else groups) gs) obj =
        occurrencesInGroups gs obj +
          (if obj.domain = "" then 0 else objects.count obj) := by
    intro objects
    induction objects with
    | nil => simp
    | cons o rest ih =>
        intro gs
        simp only [List.foldl_cons]
        by_cases hdom : o.domain != ""
        · rw [if_pos hdom, ih, occurrencesInGroups_addToGroup]
          by_cases h : o = obj
          · subst h
            have : ¬o.domain = "" := by simpa using hdom
            simp [List.count_cons, this]
            omega
          · rw [List.count_cons_of_ne (fun hh => h hh.symm)]
            simp [h]
        · rw [if_neg hdom, ih]
          by_cases h : o = obj
          · subst h
            have : o.domain = "" := by simpa using hdom
            simp [this]
          · rw [List.count_cons_of_ne (fun hh => h hh.symm)]
  have := main objects []
  simpa [occurrencesInGroups] using this

/-- Unfolding a `lookupGroup` over a cons cell. -/
lemma lookupGroup_cons (k0 : String) (objs : List CatalogObject)
    (rest : List (String × List CatalogObject)) (b : String) :
    lookupGroup ((k0, objs) :: rest) b =
      if k0 == b then objs else lookupGroup rest b := by
  unfold lookupGroup
  by_cases h : k0 == b
  · rw [List.find?_cons_of_pos _ (by simpa using h), if_pos h]
    rfl
  · rw [List.find?_cons_of_neg _ (by simpa using h), if_neg h]

/-- Bucket membership after `addToGroup`: only the bucket of `k` changes,
gaining `o`. -/
lemma mem_lookupGroup_addToGroup (gs : List (String × List CatalogObject))
    (k : String) (o obj : CatalogObject) (b : String) :
    obj ∈ lookupGroup (addToGroup gs k o) b ↔
      obj ∈ lookupGroup gs b ∨ (b = k ∧ obj = o) := by
  induction gs with
  | nil =>
      rw [show addToGroup [] k o = [(k, [o])] from rfl, lookupGroup_cons]
      by_cases h : k = b
      · subst h
        simp [lookupGroup]
      · have hne : b ≠ k := fun hh => h hh.symm
        rw [if_neg (by simpa using h)]
        simp [lookupGroup, hne]
  | cons g rest ih =>
      obtain ⟨k0, objs⟩ := g
      by_cases hk : k0 = k
      · subst hk
        rw [show addToGroup ((k0, objs) :: rest) k0 o =
            (k0, objs ++ [o]) :: rest from by simp [addToGroup],
          lookupGroup_cons, lookupGroup_cons]
        by_cases hb : k0 = b
        · subst hb
          rw [if_pos (by simp), if_pos (by simp)]
          simp [List.mem_append]
        · rw [if_neg (by simpa using hb), if_neg (by simpa using hb)]
          have hne : b ≠ k0 := fun hh => hb hh.symm
          simp [hne]
      · rw [show addToGroup ((k0, objs) :: rest) k o =
            (k0, objs) :: addToGroup rest k o from by
              simp [addToGroup, beq_eq_false_iff_ne.mpr hk],
          lookupGroup_cons, lookupGroup_cons]
        by_cases hb : k0 = b
        · subst hb
          rw [if_pos (by simp), if_pos (by simp)]
          simp [fun hh : k0 = k => hk hh]
        · rw [if_neg (by simpa using hb), if_neg (by simpa using hb)]
          rw [ih]

/-- Bucket membership after folding one object's property sets. -/
lemma mem_lookupGroup_psetFold (ps : List PropertySet)
    (gs : List (String × List CatalogObject)) (o obj : CatalogObject) (b : String) :
    obj ∈ lookupGroup (ps.foldl (fun gs pset => addToGroup gs pset.name o) gs) b ↔
      obj ∈ lookupGroup gs b ∨ (obj = o ∧ b ∈ ps.map PropertySet.name) := by
  induction ps generalizing gs with
  | nil => simp
  | cons p ps ih =>
      simp only [List.foldl_cons, ih, mem_lookupGroup_addToGroup, List.map_cons,
        List.mem_cons]
      tauto

/-- Bucket membership in the propertySet grouping: `obj` sits in bucket `b`
iff it is one of the grouped objects and carries a property set named
`b`. -/
lemma mem_lookupGroup_groupBySingle_propertySet (objects : List CatalogObject)
    (obj : CatalogObject) (b : String) :
    obj ∈ lookupGroup (groupBySingle objects "propertySet") b ↔
      obj ∈ objects ∧ b ∈ obj.property_sets.map PropertySet.name := by
  rw [groupBySingle_propertySet_eq]
  have main : ∀ (objects : List CatalogObject)
      (gs : List (String × List CatalogObject)),
      obj ∈ lookupGroup
          (objects.foldl (fun groups o => o.property_sets.foldl
            (fun gs pset => addToGroup gs pset.name o) groups) gs) b ↔
        obj ∈ lookupGroup gs b ∨
          (obj ∈ objects ∧ b ∈ obj.property_sets.map PropertySet.name) := by
    intro objects
    induction objects with
    | nil => simp
    | cons o rest ih =>
        intro gs
        simp only [List.foldl_cons, ih, mem_lookupGroup_psetFold, List.mem_cons]
        by_cases h : obj = o
        · subst h
          tauto
        · tauto
  rw [main objects []]
  simp [lookupGroup]

end GroupObjectsUseCase

/-- Counterexample fixture: an object whose `domain` is the empty string
(the dataclass allows any string). -/
def emptyDomainObject : CatalogObject :=
  { id := "OBJ_NO_DOMAIN", name := "No domain", domain := "" }

/-- C6 counterexample: grouping by `domain` does NOT place every object in
exactly one group: `_group_by_single` guards with Python truthiness
(`if value:`), so an object with an empty domain string lands in no group
at all — the grouping of a one-object list is empty and the object occurs
zero times across the buckets. -/
theorem group_by_domain_can_drop_an_object :
    GroupObjectsUseCase.groupBySingle [emptyDomainObject] "domain" = [] ∧
    GroupObjectsUseCase.occurrencesInGroups
        (GroupObjectsUseCase.groupBySingle [emptyDomainObject] "domain")
        emptyDomainObject = 0 :=
  ⟨rfl, rfl⟩

/-- C6 (amended): grouping by `propertySet` places each grouped object in
the bucket of every property-set name it carries (so one object may appear
in several groups, and each input occurrence of an object with `k`
property sets appears `k` times across the buckets); grouping by `domain`
places each object with a non-empty domain in exactly one group per input
occurrence, while objects with an empty domain string are placed in no
group. -/
theorem group_by_single_buckets (objects : List CatalogObject)
    (obj : CatalogObject) (b : String) :
    (obj ∈ GroupObjectsUseCase.lookupGroup
        (GroupObjectsUseCase.groupBySingle objects "propertySet") b ↔
      obj ∈ objects ∧ b ∈ obj.property_sets.map PropertySet.name) ∧
    GroupObjectsUseCase.occurrencesInGroups
        (GroupObjectsUseCase.groupBySingle objects "propertySet") obj =
      objects.count obj * obj.property_sets.length ∧
    GroupObjectsUseCase.occurrencesInGroups
        (GroupObjectsUseCase.groupBySingle objects "domain") obj =
      (if obj.domain = "" then 0 else objects.count obj) :=
  ⟨GroupObjectsUseCase.mem_lookupGroup_groupBySingle_propertySet objects obj b,
    GroupObjectsUseCase.occurrences_groupBySingle_propertySet objects obj,
    GroupObjectsUseCase.occurrences_groupBySingle_domain objects obj⟩

/-! ## C9: the semaphore bounds in-flight fetches -/

/-- No task is running before the batch starts. -/
lemma runningCount_replicate_waiting (n : Nat) :
    runningCount (List.replicate n TaskPhase.waiting) = 0 := by
  induction n with
  | zero => rfl
  | succ n ih => simp [List.replicate, runningCount, List.countP_cons]

/-- How one `List.set` changes the number of running tasks. -/
lemma runningCount_set (ts : List TaskPhase) (i : Nat) (v old : TaskPhase)
    (h : ts.get? i = some old) :
    runningCount (ts.set i v) + (if old == TaskPhase.running then 1 else 0) =
      runningCount ts + (if v == TaskPhase.running then 1 else 0) := by
  induction ts generalizing i with
  | nil => cases h
  | cons t ts ih =>
      cases i with
      | zero =>
          injection h with h
          subst h
          simp only [List.set, runningCount, List.countP_cons]
          split_ifs <;> omega
      | succ j =>
          have := ih j h
          simp only [List.set, runningCount, List.countP_cons] at this ⊢
          split_ifs at this ⊢ <;> omega

/-- The semaphore invariant: every state reachable from an all-waiting
batch has at most `cap` fetches in flight. -/
lemma semReachable_running_le (cap n : Nat) (s : List TaskPhase)
    (h : SemReachable cap (List.replicate n TaskPhase.waiting) s) :
    runningCount s ≤ cap := by
  induction h with
  | refl => rw [runningCount_replicate_waiting]; exact Nat.zero_le cap
  | step hs hst ih =>
      cases hst with
      | acquire i hi hcap =>
          have hset := runningCount_set _ i TaskPhase.running TaskPhase.waiting hi
          simp only [show (TaskPhase.waiting == TaskPhase.running) = false from rfl,
            show (TaskPhase.running == TaskPhase.running) = true from rfl,
            if_false, if_true, Bool.false_eq_true] at hset
          omega
      | release i hi =>
          have hset := runningCount_set _ i TaskPhase.finished TaskPhase.running hi
          simp only [show (TaskPhase.running == TaskPhase.running) = true from rfl,
            show (TaskPhase.finished == TaskPhase.running) = false from rfl,
            if_false, if_true, Bool.false_eq_true] at hset
          omega

/-- C9: under the semaphore discipline no more than the cap's worth of
fetches is ever in flight, however many ids are queued; the caps used by
the code are `max_concurrent` (default 10) for the bulk download/update
requests and the hard-coded 20 for the search-triggered and grouping
prefetches. -/
theorem semaphore_caps_in_flight :
    (∀ (cap n : Nat) (s : List TaskPhase),
        SemReachable cap (List.replicate n TaskPhase.waiting) s →
          runningCount s ≤ cap) ∧
    batchEnsureDetailsMaxConcurrent = 20 ∧
    fetchObjectsMaxConcurrent = 20 ∧
    ({} : DownloadCatalogUseCase.Request).max_concurrent = 10 ∧
    ({} : UpdateCacheUseCase.Request).max_concurrent = 10 :=
  ⟨semReachable_running_le, rfl, rfl, rfl, rfl⟩

/-- C9 witness: with cap 2 and 5 queued tasks, the state reached by one
semaphore acquisition has at most 2 fetches in flight. -/
theorem semaphore_caps_in_flight_witness :
    runningCount ((List.replicate 5 TaskPhase.waiting).set 0 TaskPhase.running) ≤ 2 :=
  semaphore_caps_in_flight.1 2 5 _
    (SemReachable.step SemReachable.refl
      (SemStep.acquire (List.replicate 5 TaskPhase.waiting) 0 (by decide) (by decide)))

/-! ## C10: unresolvable ids are silently dropped -/

namespace GroupObjectsUseCase

/-- The number of requested ids `_fetch_objects` resolves: the cached ones
plus those uncached ones whose live fetch succeeds. -/
def resolvedCount (catalog : Catalog) (cache : Option CacheState)
    (object_ids : List String) (language : String) : Nat :=
  match cache with
  | some c =>
      object_ids.countP (fun oid => (c.get_cached_object oid).isSome) +
        (object_ids.filter (fun oid => !(c.get_cached_object oid).isSome)).countP
          (fun oid => (catalog.fetch_object_by_id oid language 0).toOption.isSome)
  | none =>
      object_ids.countP
        (fun oid => (catalog.fetch_object_by_id oid language 0).toOption.isSome)

/-- The cache-splitting fold: how many cached objects it collects and which
ids it leaves missing. -/
lemma fetchObjects_split (c : CacheState) (object_ids : List String)
    (l1 : List CatalogObject) (l2 : List String) :
    (object_ids.foldl
        (fun (acc : List CatalogObject × List String) oid =>
          match c.get_cached_object oid with
          | some cached => (acc.1 ++ [cached], acc.2)
          | none => (acc.1, acc.2 ++ [oid])) (l1, l2)).1.length =
        l1.length + object_ids.countP (fun oid => (c.get_cached_object oid).isSome) ∧
    (object_ids.foldl
        (fun (acc : List CatalogObject × List String) oid =>
          match c.get_cached_object oid with
          | some cached => (acc.1 ++ [cached], acc.2)
          | none => (acc.1, acc.2 ++ [oid])) (l1, l2)).2 =
        l2 ++ object_ids.filter (fun oid => !(c.get_cached_object oid).isSome) := by
  induction object_ids generalizing l1 l2 with
  | nil => simp
  | cons oid rest ih =>
      simp only [List.foldl_cons, List.countP_cons, List.filter_cons]
      cases hoid : c.get_cached_object oid with
      | some cached =>
          have := ih (l1 ++ [cached]) l2
          simp [hoid, this.1, this.2]
          omega
      | none =>
          have := ih l1 (l2 ++ [oid])
          simp [hoid, this.1, this.2]

/-- The fetch fold: one object per successful fetch. -/
lemma fetchObjects_fetch (catalog : Catalog) (language : String)
    (missing : List String) (objs : List CatalogObject) (cache : Option CacheState) :
    (missing.foldl
        (fun (acc : List CatalogObject × Option CacheState) oid =>
          match catalog.fetch_object_by_id oid language 0 with
          | .ok obj => (acc.1 ++ [obj], saveObjectOpt acc.2 obj.id obj)
          | .error _ => acc) (objs, cache)).1.length =
      objs.length +
        missing.countP
          (fun oid => (catalog.fetch_object_by_id oid language 0).toOption.isSome) := by
  induction missing generalizing objs cache with
  | nil => simp
  | cons oid rest ih =>
      simp only [List.foldl_cons, List.countP_cons]
      cases hf : catalog.fetch_object_by_id oid language 0 with
      | ok obj =>
          simp [ih, Except.toOption]
          omega
      | error e =>
          simp [ih, Except.toOption]

/-- `_fetch_objects` resolves exactly `resolvedCount` objects. -/
lemma fetchObjects_length (catalog : Catalog) (cache : Option CacheState)
    (object_ids : List String) (language : String) :
    (fetchObjects catalog cache object_ids language).1.length =
      resolvedCount catalog cache object_ids language := by
  unfold fetchObjects resolvedCount
  cases cache with
  | none => simp [fetchObjects_fetch]
  | some c =>
      have hsplit := fetchObjects_split c object_ids [] []
      simp only
      rw [fetchObjects_fetch, hsplit.1, hsplit.2]
      simp

/-- Every return path of `execute` reports `total_objects` as the number of
resolved objects. -/
lemma execute_total_objects (catalog : Catalog) (cache : Option CacheState)
    (request : Request) :
    (execute catalog cache request).1.result.total_objects =
      (fetchObjects catalog cache request.object_ids request.language).1.length := by
  unfold execute
  by_cases hg : request.group_by.isTruthy <;> simp [hg]

end GroupObjectsUseCase

/-- A Boolean predicate and its negation partition a list's length. -/
lemma countP_bool_partition (p : String → Bool) (l : List String) :
    l.countP p + l.countP (fun a => !p a) = l.length := by
  induction l with
  | nil => rfl
  | cons a l ih =>
      simp only [List.countP_cons, List.length_cons]
      cases h : p a <;> simp [h] <;> omega

/-- C10: `GroupObjectsUseCase.execute` resolves requested ids best-effort
(its embedded type is total: a failed per-id fetch is swallowed by
`_fetch_objects`, never raised): `total_objects` equals the number of ids
that are cached or successfully fetched, which is at most — and, as the
concrete two-id request with one failing fetch shows, can be strictly less
than — the number of requested ids. -/
theorem group_objects_best_effort (catalog : Catalog) (cache : Option CacheState)
    (request : GroupObjectsUseCase.Request) :
    (GroupObjectsUseCase.execute catalog cache request).1.result.total_objects =
      GroupObjectsUseCase.resolvedCount catalog cache request.object_ids
        request.language ∧
    (GroupObjectsUseCase.execute catalog cache request).1.result.total_objects ≤
      request.object_ids.length ∧
    (GroupObjectsUseCase.execute wCatalog none
        { object_ids := ["OBJ_A", "OBJ_B"] }).1.result.total_objects = 1 ∧
    (["OBJ_A", "OBJ_B"] : List String).length = 2 := by
  have htotal := GroupObjectsUseCase.execute_total_objects catalog cache request
  have hlen := GroupObjectsUseCase.fetchObjects_length catalog cache
    request.object_ids request.language
  refine ⟨htotal.trans hlen, ?_, by rfl, rfl⟩
  rw [htotal, hlen]
  cases cache with
  | none =>
      simp only [GroupObjectsUseCase.resolvedCount]
      exact List.countP_le_length _
  | some c =>
      simp only [GroupObjectsUseCase.resolvedCount]
      have h2 : (request.object_ids.filter
          (fun oid => !(c.get_cached_object oid).isSome)).countP
            (fun oid => (catalog.fetch_object_by_id oid request.language 0).toOption.isSome) ≤
          (request.object_ids.filter
            (fun oid => !(c.get_cached_object oid).isSome)).length :=
        List.countP_le_length _
      have h3 : request.object_ids.countP
            (fun oid => !(c.get_cached_object oid).isSome) =
          (request.object_ids.filter
            (fun oid => !(c.get_cached_object oid).isSome)).length :=
        List.countP_eq_length_filter
          (fun oid => !(c.get_cached_object oid).isSome) request.object_ids
      have h4 := countP_bool_partition
        (fun oid => (c.get_cached_object oid).isSome) request.object_ids
      omega

end FdkMcp
